import Mathlib

/-!
Verification of `crates/smtp/src/config/scripts.rs` (Stalwart mail-server):
the `parse_sieve` configuration adapter that turns a configuration store
into an initialized Sieve runtime/compiler pair, a compiled-script registry,
resolved DKIM signer handles and identity defaults.

The embedding is shallow: the configuration store is an association list of
string keys and values; the external sieve engine's builder types are records
of the configured values (`none` standing for the engine's built-in default);
the mutable `ConfigContext` is threaded explicitly, and `parse_sieve` returns
both the `Except` result and the final context, so that context mutation on a
failed call is observable.  Script compilation itself lives in the external
sieve crate, so `parse_sieve` is parameterized by the compile function.
-/

namespace SieveSpec

/-- Drop the characters of `p` from the front of `s`; `none` when `p` is not
an initial segment of `s`. -/
def dropPre : List Char → List Char → Option (List Char)
  | [], s => some s
  | _ :: _, [] => none
  | p :: ps, c :: cs => if c = p then dropPre ps cs else none

/-- Strip the string `p` from the front of `s`, when `p` is an initial
segment of `s`. -/
def stripPre (p s : String) : Option String :=
  (dropPre p.data s.data).map String.mk

/-- The characters of a key segment: everything up to the first dot. -/
def takeUntilDot : List Char → List Char
  | [] => []
  | c :: cs => if c = '.' then [] else c :: takeUntilDot cs

/-- The first dot-separated segment of a key suffix. -/
def firstSegment (s : String) : String :=
  String.mk (takeUntilDot s.data)

/-- Escape backslashes and double quotes, as Rust's `{:?}` formatting of a
string does. -/
def escapeChars : List Char → List Char
  | [] => []
  | c :: cs =>
    if c = '\\' then '\\' :: '\\' :: escapeChars cs
    else if c = '"' then '\\' :: '"' :: escapeChars cs
    else c :: escapeChars cs

/-- Rust `{:?}` (Debug) rendering of a string: surrounding quotes plus
escaping. -/
def rustDebug (s : String) : String :=
  "\"" ++ String.mk (escapeChars s.data) ++ "\""

/-- First-match lookup in an association list, as a hash/btree map `get`. -/
def lookupA {α : Type} : List (String × α) → String → Option α
  | [], _ => none
  | (k, v) :: rest, k2 => if k2 = k then some v else lookupA rest k2

/-- Insert-or-replace in an association list, as a hash map `insert`. -/
def insertA {α : Type} : List (String × α) → String → α → List (String × α)
  | [], k, v => [(k, v)]
  | (k1, v1) :: rest, k, v =>
    if k1 = k then (k, v) :: rest else (k1, v1) :: insertA rest k v

/-- Modelled from the spec: numeric property parsing (the `utils` crate's
`Config::property::<u64>` parser is not under `src/`); a decimal number. -/
def digitsToNat : List Char → Nat → Option Nat
  | [], acc => some acc
  | c :: cs, acc =>
    if c.isDigit then digitsToNat cs (acc * 10 + (c.toNat - 48)) else none

/-- Parse a decimal natural number; `none` when empty or non-numeric. -/
def parseNat (s : String) : Option Nat :=
  match s.data with
  | [] => none
  | cs => digitsToNat cs 0

/-- Modelled from the spec: a duration value ("duplicate-suppression expiry
(duration)"); the `utils` duration parser is not under `src/`, so a duration
is modelled as its number of seconds. -/
structure Duration where
  secs : Nat
deriving DecidableEq, Repr

/-- Rust `Duration::as_secs`. -/
def Duration.as_secs (d : Duration) : Nat := d.secs

/-- Modelled from the spec: duration property parsing, a decimal number of
seconds. -/
def parseDuration (s : String) : Option Duration :=
  (parseNat s).map Duration.mk

/-- The configuration store (`utils::config::Config`, not under `src/`):
a string-keyed map of string values, modelled as an association list. -/
structure Config where
  keys : List (String × String)
deriving DecidableEq, Repr

/-- Modelled from the spec: `Config::value`, the raw string value of a key. -/
def Config.value (c : Config) (k : String) : Option String :=
  lookupA c.keys k

/-- Modelled from the spec: `Config::value_require`, a fatal error when the
key is absent. -/
def Config.value_require (c : Config) (k : String) : Except String String :=
  match c.value k with
  | some v => .ok v
  | none => .error ("Missing setting " ++ rustDebug k ++ ".")

/-- Modelled from the spec: `Config::property::<u64>`, `Ok none` when the key
is absent, an error when present but unparsable. -/
def Config.property (c : Config) (k : String) : Except String (Option Nat) :=
  match c.value k with
  | none => .ok none
  | some s =>
    match parseNat s with
    | some n => .ok (some n)
    | none => .error ("Invalid value for key " ++ rustDebug k ++ ".")

/-- Modelled from the spec: `Config::property::<Duration>`. -/
def Config.durationProperty (c : Config) (k : String) :
    Except String (Option Duration) :=
  match c.value k with
  | none => .ok none
  | some s =>
    match parseDuration s with
    | some d => .ok (some d)
    | none => .error ("Invalid value for key " ++ rustDebug k ++ ".")

/-- Adjacent deduplication with a running last-seen key, as the `last_key`
filter in the `utils` config `sub_keys` iterator. -/
def dedupAdj : Option String → List String → List String
  | _, [] => []
  | last, x :: xs =>
    if last = some x then dedupAdj last xs
    else x :: dedupAdj (some x) xs

/-- Modelled from the spec: `Config::sub_keys`, the first dot-separated
segments of the keys under `prefixKey ++ "."`, with adjacent duplicates
removed (the real store is a sorted `BTreeMap`, so adjacent deduplication is
full deduplication there). -/
def Config.sub_keys (c : Config) (prefixKey : String) : List String :=
  dedupAdj none
    (c.keys.filterMap fun kv =>
      (stripPre (prefixKey ++ ".") kv.1).map firstSegment)

/-- Modelled from the spec: `Config::values`, the ordered entries under
`prefixKey ++ "."`, each as its key suffix paired with its value
(`sieve.sign.*`: "ordered list of signer identifiers to look up"). -/
def Config.values (c : Config) (prefixKey : String) :
    List (String × String) :=
  c.keys.filterMap fun kv =>
    (stripPre (prefixKey ++ ".") kv.1).map fun suffix => (suffix, kv.2)

/-- Modelled from the spec: `Config::file_contents` ("one file per
identifier", file-backed entries); the key's value is a path resolved
against a file system, modelled as an association list from path to
contents. -/
def fileContents (c : Config) (fs : List (String × String)) (key : String) :
    Except String String :=
  match c.value key with
  | none => .error ("Property " ++ rustDebug key ++ " not found in configuration file.")
  | some path =>
    match lookupA fs path with
    | some contents => .ok contents
    | none => .error ("Failed to read file " ++ rustDebug path ++ " for property " ++ rustDebug key ++ ".")

/-- The sieve engine capabilities named in `parse_sieve`. -/
inductive Capability where
  | FileInto | Vacation | VacationSeconds | Fcc | Mailbox | MailboxId
  | MboxMetadata | ServerMetadata | ImapSieve | Duplicate | Execute
deriving DecidableEq, Repr

/-- The sieve crate's `Compiler` builder (external crate): a record of the
configured limits, `none` meaning the engine's built-in default. -/
structure Compiler where
  maxStringSize : Option Nat
  maxVariableNameSize : Option Nat
  maxNestedBlocks : Option Nat
  maxNestedTests : Option Nat
  maxNestedForEveryPart : Option Nat
  maxLocalVariables : Option Nat
  maxHeaderSize : Option Nat
  maxIncludes : Option Nat
deriving DecidableEq, Repr

/-- `Compiler::new()`: every limit at the engine's built-in default. -/
def Compiler.new : Compiler :=
  ⟨none, none, none, none, none, none, none, none⟩

def Compiler.with_max_string_size (c : Compiler) (v : Nat) : Compiler :=
  { c with maxStringSize := some v }

def Compiler.with_max_variable_name_size (c : Compiler) (v : Nat) : Compiler :=
  { c with maxVariableNameSize := some v }

def Compiler.with_max_nested_blocks (c : Compiler) (v : Nat) : Compiler :=
  { c with maxNestedBlocks := some v }

def Compiler.with_max_nested_tests (c : Compiler) (v : Nat) : Compiler :=
  { c with maxNestedTests := some v }

def Compiler.with_max_nested_foreverypart (c : Compiler) (v : Nat) : Compiler :=
  { c with maxNestedForEveryPart := some v }

def Compiler.with_max_local_variables (c : Compiler) (v : Nat) : Compiler :=
  { c with maxLocalVariables := some v }

def Compiler.with_max_header_size (c : Compiler) (v : Nat) : Compiler :=
  { c with maxHeaderSize := some v }

def Compiler.with_max_includes (c : Compiler) (v : Nat) : Compiler :=
  { c with maxIncludes := some v }

/-- A compiled Sieve script object (the external engine's `Sieve`); the
compile function producing it is a parameter of `parse_sieve`. -/
structure Script where
  source : String
deriving DecidableEq, Repr

/-- A DKIM signer handle (`Arc<DkimSigner>`), identified by its id. -/
structure Signer where
  id : String
deriving DecidableEq, Repr

/-- A lookup/list handle (`Arc<Lookup>`), identified by its id. -/
structure Lookup where
  id : String
deriving DecidableEq, Repr

/-- A directory/storage handle (`Arc<dyn Directory>`), identified by its
id. -/
structure Directory where
  id : String
deriving DecidableEq, Repr

/-- The sieve crate's `Runtime` builder (external crate): a record of the
configured values, `none` meaning the engine's built-in default;
`removedCapabilities` and `addedCapabilities` record the capability
deny/allow edits applied to the engine's default capability set. -/
structure Runtime where
  removedCapabilities : List Capability
  addedCapabilities : List Capability
  maxVariableSize : Option Nat
  maxHeaderSize : Option Nat
  validNotificationUris : List String
  validExtLists : List String
  maxRedirects : Option Nat
  maxOutMessages : Option Nat
  cpuLimit : Option Nat
  maxNestedIncludes : Option Nat
  maxReceivedHeaders : Option Nat
  defaultDuplicateExpiry : Option Nat
  localHostname : Option String
deriving DecidableEq, Repr

/-- `Runtime::new()`: every value at the engine's built-in default. -/
def Runtime.new : Runtime :=
  ⟨[], [], none, none, [], [], none, none, none, none, none, none, none⟩

def Runtime.without_capabilities (r : Runtime) (caps : List Capability) : Runtime :=
  { r with removedCapabilities := r.removedCapabilities ++ caps }

def Runtime.with_capability (r : Runtime) (c : Capability) : Runtime :=
  { r with addedCapabilities := r.addedCapabilities ++ [c] }

def Runtime.with_max_variable_size (r : Runtime) (v : Nat) : Runtime :=
  { r with maxVariableSize := some v }

def Runtime.with_max_header_size (r : Runtime) (v : Nat) : Runtime :=
  { r with maxHeaderSize := some v }

def Runtime.with_valid_notification_uri (r : Runtime) (u : String) : Runtime :=
  { r with validNotificationUris := r.validNotificationUris ++ [u] }

def Runtime.with_valid_ext_lists (r : Runtime) (ls : List String) : Runtime :=
  { r with validExtLists := ls }

def Runtime.set_max_redirects (r : Runtime) (v : Nat) : Runtime :=
  { r with maxRedirects := some v }

def Runtime.set_max_out_messages (r : Runtime) (v : Nat) : Runtime :=
  { r with maxOutMessages := some v }

def Runtime.set_cpu_limit (r : Runtime) (v : Nat) : Runtime :=
  { r with cpuLimit := some v }

def Runtime.set_max_nested_includes (r : Runtime) (v : Nat) : Runtime :=
  { r with maxNestedIncludes := some v }

def Runtime.set_max_received_headers (r : Runtime) (v : Nat) : Runtime :=
  { r with maxReceivedHeaders := some v }

def Runtime.set_default_duplicate_expiry (r : Runtime) (v : Nat) : Runtime :=
  { r with defaultDuplicateExpiry := some v }

def Runtime.set_local_hostname (r : Runtime) (h : String) : Runtime :=
  { r with localHostname := some h }

/-- The directory tables (`ConfigContext::directory`): lookup/list handles
and directory/storage handles, keyed by identifier. -/
structure DirectoryConfig where
  lookups : List (String × Lookup)
  directories : List (String × Directory)
deriving DecidableEq, Repr

/-- The mutable shared `ConfigContext`: the script cache, signer table and
directory tables. -/
structure ConfigContext where
  scripts : List (String × Script)
  signers : List (String × Signer)
  directory : DirectoryConfig
deriving DecidableEq, Repr

/-- `SieveConfig` (`crates/smtp/src/core`): identity defaults, resolved
signer handles and the optional storage handle. -/
structure SieveConfig where
  from_addr : String
  from_name : String
  return_path : String
  sign : List Signer
  db : Option Directory
deriving DecidableEq, Repr

/-- `SieveCore` (`crates/smtp/src/core`): the runtime, the script registry,
the lookup table and the `SieveConfig` record. -/
structure SieveCore where
  runtime : Runtime
  scripts : List (String × Script)
  lookup : List (String × Lookup)
  config : SieveConfig
deriving DecidableEq, Repr

/-- The compiler built by `parse_sieve` (`scripts.rs` lines 40-49): the
builder chain with its fixed size/nesting limits, including both
`with_max_string_size` calls. -/
def sieveCompiler : Compiler :=
  ((((((((Compiler.new.with_max_string_size 52428800).with_max_string_size
    10240).with_max_variable_name_size 100).with_max_nested_blocks
    50).with_max_nested_tests 50).with_max_nested_foreverypart
    10).with_max_local_variables 128).with_max_header_size
    10240).with_max_includes 10

/-- The runtime built by `parse_sieve` (`scripts.rs` lines 50-67) before the
configured limit overrides: the static capability deny-list minus the
re-enabled `Execute` capability, fixed sizes, the `mailto` notification URI
and the context's lookup identifiers as valid external lists. -/
def sieveRuntimeBase (ctx : ConfigContext) : Runtime :=
  (((((Runtime.new.without_capabilities
    [Capability.FileInto, Capability.Vacation, Capability.VacationSeconds,
     Capability.Fcc, Capability.Mailbox, Capability.MailboxId,
     Capability.MboxMetadata, Capability.ServerMetadata,
     Capability.ImapSieve,
     Capability.Duplicate]).with_capability
    Capability.Execute).with_max_variable_size
    102400).with_max_header_size
    10240).with_valid_notification_uri
    "mailto").with_valid_ext_lists (ctx.directory.lookups.map Prod.fst)

/-- The six optional limit overrides of `parse_sieve` (`scripts.rs` lines
69-86): each `if let Some(value) = self.property(..)` block, a parse error
propagating. -/
def applyLimits (c : Config) (r : Runtime) : Except String Runtime :=
  match c.property "sieve.limits.redirects" with
  | .error e => .error e
  | .ok v1 =>
  let r := match v1 with | some n => r.set_max_redirects n | none => r
  match c.property "sieve.limits.out-messages" with
  | .error e => .error e
  | .ok v2 =>
  let r := match v2 with | some n => r.set_max_out_messages n | none => r
  match c.property "sieve.limits.cpu" with
  | .error e => .error e
  | .ok v3 =>
  let r := match v3 with | some n => r.set_cpu_limit n | none => r
  match c.property "sieve.limits.nested-includes" with
  | .error e => .error e
  | .ok v4 =>
  let r := match v4 with | some n => r.set_max_nested_includes n | none => r
  match c.property "sieve.limits.received-headers" with
  | .error e => .error e
  | .ok v5 =>
  let r := match v5 with | some n => r.set_max_received_headers n | none => r
  match c.durationProperty "sieve.limits.duplicate-expiry" with
  | .error e => .error e
  | .ok v6 =>
  .ok (match v6 with
       | some d => r.set_default_duplicate_expiry d.as_secs
       | none => r)

/-- The hostname resolution of `parse_sieve` (`scripts.rs` lines 87-91):
`sieve.hostname` when present, else `server.hostname`, required. -/
def resolvedHostname (c : Config) : Except String String :=
  match c.value "sieve.hostname" with
  | some h => .ok h
  | none => c.value_require "server.hostname"

/-- The compile-error message of `parse_sieve` (`scripts.rs` line 101). -/
def compileErrMsg (id err : String) : String :=
  "Failed to compile Sieve script " ++ rustDebug id ++ ": " ++ err

/-- The script-compilation loop of `parse_sieve` (`scripts.rs` lines
95-104): for each sub-key of `sieve.scripts`, read the file, compile it and
insert the result into the context's script cache; on the first failure the
loop stops, returning the error together with the context as mutated so
far. -/
def compileScripts (c : Config) (fs : List (String × String))
    (compile : Compiler → String → Except String Script) :
    List String → ConfigContext → ConfigContext × Option String
  | [], ctx => (ctx, none)
  | id :: ids, ctx =>
    match fileContents c fs ("sieve.scripts." ++ id) with
    | .error e => (ctx, some e)
    | .ok script =>
      match compile sieveCompiler script with
      | .error err => (ctx, some (compileErrMsg id err))
      | .ok compiled =>
        compileScripts c fs compile ids
          { ctx with scripts := insertA ctx.scripts id compiled }

/-- The unresolved-signer message of `parse_sieve` (`scripts.rs` lines
112-116); `pos` is the key suffix of the offending `sieve.sign` entry. -/
def signerErrMsg (pos id : String) : String :=
  "No DKIM signer found with id " ++ rustDebug id ++ " for key " ++
    rustDebug ("sieve.sign." ++ pos) ++ "."

/-- The DKIM signer resolution of `parse_sieve` (`scripts.rs` lines
107-118): each `sieve.sign` entry's identifier looked up in the signer
table, in order; the first unresolved identifier is a fatal error. -/
def resolveSigners (signers : List (String × Signer)) :
    List (String × String) → Except String (List Signer)
  | [] => .ok []
  | (pos, id) :: rest =>
    match lookupA signers id with
    | some dkim => (resolveSigners signers rest).map (dkim :: ·)
    | none => .error (signerErrMsg pos id)

/-- The unresolved-directory message of `parse_sieve` (`scripts.rs` lines
142-144). -/
def dbErrMsg (db : String) : String :=
  "Directory " ++ rustDebug db ++ " not found for key \"sieve.use-directory\"."

/-- The storage-backend resolution of `parse_sieve` (`scripts.rs` lines
138-148): the optional `sieve.use-directory` value looked up in the
directory table. -/
def resolveDb (c : Config) (dirs : List (String × Directory)) :
    Except String (Option Directory) :=
  match c.value "sieve.use-directory" with
  | none => .ok none
  | some db =>
    match lookupA dirs db with
    | some d => .ok (some d)
    | none => .error (dbErrMsg db)

/-- `parse_sieve` (`scripts.rs` lines 38-151): build the compiler and
runtime, apply the limit overrides, resolve the hostname, compile the
scripts into the shared context, resolve signers and the optional storage
backend, and assemble the `SieveCore`.  The final context is returned in
both the success and the error case, mirroring the mutation of the `&mut
ConfigContext` argument. -/
def parse_sieve (c : Config) (fs : List (String × String))
    (compile : Compiler → String → Except String Script)
    (ctx : ConfigContext) : Except String SieveCore × ConfigContext :=
  match applyLimits c (sieveRuntimeBase ctx) with
  | .error e => (.error e, ctx)
  | .ok runtime =>
    match resolvedHostname c with
    | .error e => (.error e, ctx)
    | .ok hostname =>
      let runtime := runtime.set_local_hostname hostname
      match compileScripts c fs compile (c.sub_keys "sieve.scripts") ctx with
      | (ctx, some e) => (.error e, ctx)
      | (ctx, none) =>
        match resolveSigners ctx.signers (c.values "sieve.sign") with
        | .error e => (.error e, ctx)
        | .ok sign =>
          match resolveDb c ctx.directory.directories with
          | .error e => (.error e, ctx)
          | .ok db =>
            (.ok { runtime := runtime
                   scripts := ctx.scripts
                   lookup := ctx.directory.lookups
                   config :=
                     { from_addr := (c.value "sieve.from-addr").getD
                         ("MAILER-DAEMON@" ++ hostname)
                       from_name := (c.value "sieve.from-name").getD
                         "Mailer Daemon"
                       return_path := (c.value "sieve.return-path").getD ""
                       sign := sign
                       db := db } }, ctx)

/-- The outcome of reading and compiling one script: the file contents of
the sub-key's entry fed to the compiler, as an `Option`. -/
def scriptResult (c : Config) (fs : List (String × String))
    (compile : Compiler → String → Except String Script) (id : String) :
    Option Script :=
  match fileContents c fs ("sieve.scripts." ++ id) with
  | .error _ => none
  | .ok script => (compile sieveCompiler script).toOption

/-- A compile function that always succeeds, wrapping the source text; used
for concrete instances. -/
def compileOk : Compiler → String → Except String Script :=
  fun _ s => .ok ⟨s⟩

/-- A compile function that always fails with a fixed diagnostic; used for
concrete instances. -/
def compileBad : Compiler → String → Except String Script :=
  fun _ _ => .error "unexpected token"

/-- A concrete file system: two well-formed script files and one that the
failing compiler rejects. -/
def fsW : List (String × String) :=
  [("fa", "keep;"), ("fb", "discard;"), ("fbad", "keep keep;")]

/-- A concrete context: empty script cache, one signer (`rsa`), no lookups,
one directory (`sql`). -/
def ctxW0 : ConfigContext :=
  ⟨[], [("rsa", ⟨"rsa"⟩)], ⟨[], [("sql", ⟨"sql"⟩)]⟩⟩

/-- A concrete context whose script cache already holds an entry. -/
def ctxStale : ConfigContext :=
  ⟨[("stale", ⟨"old"⟩)], [], ⟨[], []⟩⟩

/-- A configuration with a hostname and two scripts. -/
def cfgW1 : Config :=
  ⟨[("server.hostname", "mx.example.org"),
    ("sieve.scripts.a", "fa"), ("sieve.scripts.b", "fb")]⟩

/-- A minimal configuration: only the server hostname. -/
def cfgC1 : Config := ⟨[("server.hostname", "h")]⟩

/-- A configuration with both hostname keys present. -/
def cfgW2 : Config :=
  ⟨[("sieve.hostname", "sieve.example.org"),
    ("server.hostname", "mx.example.org")]⟩

/-- A configuration referencing a signer id absent from the signer table. -/
def cfgW4 : Config :=
  ⟨[("server.hostname", "h"), ("sieve.sign.0", "ed25519")]⟩

/-- A configuration whose single script the failing compiler rejects. -/
def cfgW5 : Config :=
  ⟨[("server.hostname", "h"), ("sieve.scripts.bad", "fbad")]⟩

/-- A configuration referencing a storage backend absent from the directory
table. -/
def cfgW7 : Config :=
  ⟨[("server.hostname", "h"), ("sieve.use-directory", "missingdb")]⟩

/-- A configuration overriding one of the six runtime limits. -/
def cfgW8 : Config :=
  ⟨[("server.hostname", "h"), ("sieve.limits.cpu", "250")]⟩

/-- A configuration with one compiling script and an unresolved signer. -/
def cfgW10 : Config :=
  ⟨[("server.hostname", "h"), ("sieve.scripts.a", "fa"),
    ("sieve.sign.0", "ed25519")]⟩

/-- A default `SieveCore`, the fallback for concrete projections. -/
def defaultCore : SieveCore :=
  ⟨Runtime.new, [], [], ⟨"", "", "", [], none⟩⟩

/-- The core produced by `parse_sieve` on `cfgW1`. -/
def coreW1 : SieveCore :=
  ((parse_sieve cfgW1 fsW compileOk ctxW0).1.toOption).getD defaultCore

/-- The core produced by `parse_sieve` on `cfgW2`. -/
def coreW2 : SieveCore :=
  ((parse_sieve cfgW2 fsW compileOk ctxW0).1.toOption).getD defaultCore

/-- The core produced by `parse_sieve` on `cfgW8`. -/
def coreW8 : SieveCore :=
  ((parse_sieve cfgW8 fsW compileOk ctxW0).1.toOption).getD defaultCore

/-- The context after the script-compilation loop on `cfgW10`. -/
def ctx1W10 : ConfigContext :=
  (compileScripts cfgW10 fsW compileOk
    (cfgW10.sub_keys "sieve.scripts") ctxW0).1

theorem lookupA_insertA {α : Type} (m : List (String × α)) (k k2 : String)
    (v : α) :
    lookupA (insertA m k v) k2 = if k2 = k then some v else lookupA m k2 := by
  induction m with
  | nil => simp [insertA, lookupA]
  | cons hd tl ih =>
    obtain ⟨k1, v1⟩ := hd
    by_cases h1 : k1 = k
    · subst h1
      by_cases h2 : k2 = k1 <;> simp [insertA, lookupA, h2]
    · by_cases h2 : k2 = k1
      · have h3 : ¬ k2 = k := by rw [h2]; exact h1
        simp [insertA, lookupA, h1, h2, h3]
      · simp [insertA, lookupA, h1, h2, ih]

theorem insertA_not_mem {α : Type} (m : List (String × α)) (k : String)
    (v : α) (h : k ∉ m.map Prod.fst) : insertA m k v = m ++ [(k, v)] := by
  induction m with
  | nil => rfl
  | cons hd tl ih =>
    obtain ⟨k1, v1⟩ := hd
    simp only [List.map_cons, List.mem_cons] at h
    push_neg at h
    simp [insertA, Ne.symm h.1, ih h.2]

theorem property_ok (c : Config) (k : String) (v : Option Nat)
    (h : c.property k = .ok v) : v = (c.value k).bind parseNat := by
  unfold Config.property at h
  cases hv : c.value k with
  | none => simp [hv] at h; simp [h.symm]
  | some s =>
    simp only [hv] at h
    cases hp : parseNat s with
    | none => simp [hp] at h
    | some n => simp [hp] at h; simp [← h, hv, hp]

theorem durationProperty_ok (c : Config) (k : String) (v : Option Duration)
    (h : c.durationProperty k = .ok v) :
    v.map Duration.as_secs = (c.value k).bind parseNat := by
  unfold Config.durationProperty at h
  cases hv : c.value k with
  | none => simp [hv] at h; simp [h.symm]
  | some s =>
    simp only [hv] at h
    cases hp : parseDuration s with
    | none => simp [hp] at h
    | some d =>
      simp only [hp] at h
      cases h
      unfold parseDuration at hp
      cases hn : parseNat s with
      | none => simp [hn] at hp
      | some n =>
        simp [hn] at hp
        simp [← hp, Duration.as_secs, hv, hn]

theorem applyLimits_base_ok (c : Config) (ctx : ConfigContext) (r : Runtime)
    (h : applyLimits c (sieveRuntimeBase ctx) = .ok r) :
    r = { sieveRuntimeBase ctx with
      maxRedirects := (c.value "sieve.limits.redirects").bind parseNat,
      maxOutMessages := (c.value "sieve.limits.out-messages").bind parseNat,
      cpuLimit := (c.value "sieve.limits.cpu").bind parseNat,
      maxNestedIncludes :=
        (c.value "sieve.limits.nested-includes").bind parseNat,
      maxReceivedHeaders :=
        (c.value "sieve.limits.received-headers").bind parseNat,
      defaultDuplicateExpiry :=
        (c.value "sieve.limits.duplicate-expiry").bind parseNat } := by
  unfold applyLimits at h
  cases hp1 : c.property "sieve.limits.redirects" with
  | error e => simp [hp1] at h
  | ok v1 =>
  simp only [hp1] at h
  cases hp2 : c.property "sieve.limits.out-messages" with
  | error e => simp [hp2] at h
  | ok v2 =>
  simp only [hp2] at h
  cases hp3 : c.property "sieve.limits.cpu" with
  | error e => simp [hp3] at h
  | ok v3 =>
  simp only [hp3] at h
  cases hp4 : c.property "sieve.limits.nested-includes" with
  | error e => simp [hp4] at h
  | ok v4 =>
  simp only [hp4] at h
  cases hp5 : c.property "sieve.limits.received-headers" with
  | error e => simp [hp5] at h
  | ok v5 =>
  simp only [hp5] at h
  cases hp6 : c.durationProperty "sieve.limits.duplicate-expiry" with
  | error e => simp [hp6] at h
  | ok v6 =>
  simp only [hp6, Except.ok.injEq] at h
  subst h
  have e1 := property_ok c _ v1 hp1
  have e2 := property_ok c _ v2 hp2
  have e3 := property_ok c _ v3 hp3
  have e4 := property_ok c _ v4 hp4
  have e5 := property_ok c _ v5 hp5
  have e6 := durationProperty_ok c _ v6 hp6
  cases v6 with
  | none =>
    simp only [Option.map_none'] at e6
    cases v1 <;> cases v2 <;> cases v3 <;> cases v4 <;> cases v5 <;>
      rw [← e1, ← e2, ← e3, ← e4, ← e5, ← e6] <;> rfl
  | some d =>
    simp only [Option.map_some'] at e6
    cases v1 <;> cases v2 <;> cases v3 <;> cases v4 <;> cases v5 <;>
      rw [← e1, ← e2, ← e3, ← e4, ← e5, ← e6] <;> rfl

theorem compileScripts_preserves (c : Config) (fs : List (String × String))
    (compile : Compiler → String → Except String Script) :
    ∀ (ids : List String) (ctx : ConfigContext),
    ((compileScripts c fs compile ids ctx).1.signers = ctx.signers) ∧
    ((compileScripts c fs compile ids ctx).1.directory = ctx.directory) := by
  intro ids
  induction ids with
  | nil => intro ctx; exact ⟨rfl, rfl⟩
  | cons id0 ids ih =>
    intro ctx
    cases hf : fileContents c fs ("sieve.scripts." ++ id0) with
    | error e => simp [compileScripts, hf]
    | ok script =>
      cases hc : compile sieveCompiler script with
      | error err => simp [compileScripts, hf, hc]
      | ok compiled =>
        simp only [compileScripts, hf, hc]
        exact ih { ctx with scripts := insertA ctx.scripts id0 compiled }

theorem compileScripts_ok_spec (c : Config) (fs : List (String × String))
    (compile : Compiler → String → Except String Script) :
    ∀ (ids : List String) (ctx ctx2 : ConfigContext),
    compileScripts c fs compile ids ctx = (ctx2, none) →
    (∀ id ∈ ids, (scriptResult c fs compile id).isSome) ∧
    (∀ id, lookupA ctx2.scripts id =
      if id ∈ ids then scriptResult c fs compile id
      else lookupA ctx.scripts id) := by
  intro ids
  induction ids with
  | nil =>
    intro ctx ctx2 h
    simp only [compileScripts] at h
    cases h
    simp
  | cons id0 ids ih =>
    intro ctx ctx2 h
    unfold compileScripts at h
    cases hf : fileContents c fs ("sieve.scripts." ++ id0) with
    | error e => simp [hf] at h
    | ok script =>
      simp only [hf] at h
      cases hc : compile sieveCompiler script with
      | error err => simp [hc] at h
      | ok compiled =>
        simp only [hc] at h
        have hres : scriptResult c fs compile id0 = some compiled := by
          simp [scriptResult, hf, hc, Except.toOption]
        obtain ⟨hall, hlook⟩ :=
          ih { ctx with scripts := insertA ctx.scripts id0 compiled } ctx2 h
        refine ⟨?_, ?_⟩
        · intro id hid
          rcases List.mem_cons.mp hid with h0 | h0
          · subst h0; simp [hres]
          · exact hall id h0
        · intro id
          have hl := hlook id
          by_cases hmem : id ∈ ids
          · simp [hmem, hl]
          · by_cases hid0 : id = id0
            · subst hid0
              simp only [hmem, if_neg] at hl
              simp only [lookupA_insertA, if_pos rfl] at hl
              simp [hl, hres]
            · simp only [hmem, if_neg] at hl
              simp only [lookupA_insertA, if_neg hid0] at hl
              simp [hl, hmem, hid0]

theorem compileScripts_ok_keys (c : Config) (fs : List (String × String))
    (compile : Compiler → String → Except String Script) :
    ∀ (ids : List String) (ctx ctx2 : ConfigContext),
    compileScripts c fs compile ids ctx = (ctx2, none) →
    ids.Nodup → (∀ id ∈ ids, id ∉ ctx.scripts.map Prod.fst) →
    ctx2.scripts.map Prod.fst = ctx.scripts.map Prod.fst ++ ids := by
  intro ids
  induction ids with
  | nil =>
    intro ctx ctx2 h _ _
    simp only [compileScripts] at h
    cases h
    simp
  | cons id0 ids ih =>
    intro ctx ctx2 h hnd hdisj
    unfold compileScripts at h
    cases hf : fileContents c fs ("sieve.scripts." ++ id0) with
    | error e => simp [hf] at h
    | ok script =>
      simp only [hf] at h
      cases hc : compile sieveCompiler script with
      | error err => simp [hc] at h
      | ok compiled =>
        simp only [hc] at h
        have hid0 : id0 ∉ ctx.scripts.map Prod.fst :=
          hdisj id0 (List.mem_cons_self id0 ids)
        have hins := insertA_not_mem ctx.scripts id0 compiled hid0
        have hrec := ih { ctx with scripts := insertA ctx.scripts id0 compiled }
          ctx2 h (List.Nodup.of_cons hnd) ?_
        · rw [hrec]
          simp [hins]
        · intro id hid
          simp only [hins, List.map_append, List.mem_append]
          push_neg
          refine ⟨hdisj id (List.mem_cons_of_mem id0 hid), ?_⟩
          have : id0 ∉ ids := (List.nodup_cons.mp hnd).1
          simp only [List.map_cons, List.map_nil, List.mem_singleton]
          intro hcontra
          exact this (hcontra ▸ hid)

theorem compileScripts_fail (c : Config) (fs : List (String × String))
    (compile : Compiler → String → Except String Script) :
    ∀ (pre : List String) (ctx : ConfigContext) (id : String)
      (post : List String) (src err : String),
    (∀ j ∈ pre, (scriptResult c fs compile j).isSome) →
    fileContents c fs ("sieve.scripts." ++ id) = .ok src →
    compile sieveCompiler src = .error err →
    (compileScripts c fs compile (pre ++ id :: post) ctx).2 =
      some (compileErrMsg id err) := by
  intro pre
  induction pre with
  | nil =>
    intro ctx id post src err _ hfile hcomp
    simp [compileScripts, hfile, hcomp]
  | cons j pre ih =>
    intro ctx id post src err hall hfile hcomp
    have hj := hall j (List.mem_cons_self j pre)
    unfold scriptResult at hj
    cases hfj : fileContents c fs ("sieve.scripts." ++ j) with
    | error e => simp [hfj] at hj
    | ok scriptj =>
      simp only [hfj] at hj
      cases hcj : compile sieveCompiler scriptj with
      | error e => simp [hcj, Except.toOption] at hj
      | ok compiledj =>
        simp only [List.cons_append, compileScripts, hfj, hcj]
        exact ih { ctx with scripts := insertA ctx.scripts j compiledj }
          id post src err (fun x hx => hall x (List.mem_cons_of_mem j hx))
          hfile hcomp

theorem resolveSigners_ok_spec (signers : List (String × Signer)) :
    ∀ (entries : List (String × String)) (sign : List Signer),
    resolveSigners signers entries = .ok sign →
    (∀ e ∈ entries, (lookupA signers e.2).isSome) ∧
    sign = entries.filterMap (fun e => lookupA signers e.2) := by
  intro entries
  induction entries with
  | nil =>
    intro sign h
    simp only [resolveSigners] at h
    cases h
    simp
  | cons hd rest ih =>
    obtain ⟨pos, id⟩ := hd
    intro sign h
    unfold resolveSigners at h
    cases hl : lookupA signers id with
    | none => simp [hl] at h
    | some dkim =>
      simp only [hl] at h
      cases hr : resolveSigners signers rest with
      | error e => simp [hr, Except.map] at h
      | ok s2 =>
        simp only [hr, Except.map, Except.ok.injEq] at h
        obtain ⟨hall, hfm⟩ := ih s2 hr
        subst h
        refine ⟨?_, ?_⟩
        · intro e he
          rcases List.mem_cons.mp he with h0 | h0
          · subst h0; simp [hl]
          · exact hall e h0
        · simp [List.filterMap_cons, hl, hfm]

theorem resolveSigners_fail (signers : List (String × Signer)) :
    ∀ (pre : List (String × String)) (pos id : String)
      (post : List (String × String)),
    (∀ e ∈ pre, (lookupA signers e.2).isSome) →
    lookupA signers id = none →
    resolveSigners signers (pre ++ (pos, id) :: post) =
      .error (signerErrMsg pos id) := by
  intro pre
  induction pre with
  | nil =>
    intro pos id post _ hnone
    simp [resolveSigners, hnone]
  | cons hd pre ih =>
    obtain ⟨p, i⟩ := hd
    intro pos id post hall hnone
    have hi := hall (p, i) (List.mem_cons_self (p, i) pre)
    cases hl : lookupA signers i with
    | none => simp [hl] at hi
    | some dkim =>
      have hrec := ih pos id post
        (fun e he => hall e (List.mem_cons_of_mem (p, i) he)) hnone
      simp [resolveSigners, hl, List.append_eq, hrec, Except.map]

theorem parse_sieve_ok_elim (c : Config) (fs : List (String × String))
    (compile : Compiler → String → Except String Script)
    (ctx : ConfigContext) (core : SieveCore) (ctx2 : ConfigContext)
    (h : parse_sieve c fs compile ctx = (.ok core, ctx2)) :
    ∃ r h0 sign db,
      applyLimits c (sieveRuntimeBase ctx) = .ok r ∧
      resolvedHostname c = .ok h0 ∧
      compileScripts c fs compile (c.sub_keys "sieve.scripts") ctx =
        (ctx2, none) ∧
      resolveSigners ctx2.signers (c.values "sieve.sign") = .ok sign ∧
      resolveDb c ctx2.directory.directories = .ok db ∧
      core = { runtime := r.set_local_hostname h0
               scripts := ctx2.scripts
               lookup := ctx2.directory.lookups
               config :=
                 { from_addr := (c.value "sieve.from-addr").getD
                     ("MAILER-DAEMON@" ++ h0)
                   from_name := (c.value "sieve.from-name").getD
                     "Mailer Daemon"
                   return_path := (c.value "sieve.return-path").getD ""
                   sign := sign
                   db := db } } := by
  unfold parse_sieve at h
  cases hA : applyLimits c (sieveRuntimeBase ctx) with
  | error e => simp [hA] at h
  | ok r =>
  simp only [hA] at h
  cases hH : resolvedHostname c with
  | error e => simp [hH] at h
  | ok h0 =>
  simp only [hH] at h
  cases hC : compileScripts c fs compile (c.sub_keys "sieve.scripts") ctx with
  | mk ctx1 err =>
  simp only [hC] at h
  cases err with
  | some e => simp at h
  | none =>
  cases hS : resolveSigners ctx1.signers (c.values "sieve.sign") with
  | error e => simp [hS] at h
  | ok sign =>
  simp only [hS] at h
  cases hD : resolveDb c ctx1.directory.directories with
  | error e => simp [hD] at h
  | ok db =>
  simp only [hD, Prod.mk.injEq, Except.ok.injEq] at h
  obtain ⟨hcore, hctx⟩ := h
  subst hctx
  exact ⟨r, h0, sign, db, rfl, rfl, rfl, hS, hD, hcore.symm⟩

theorem parse_sieve_scripts_err (c : Config) (fs : List (String × String))
    (compile : Compiler → String → Except String Script)
    (ctx : ConfigContext) (r : Runtime) (h0 : String)
    (ctx1 : ConfigContext) (e : String)
    (hA : applyLimits c (sieveRuntimeBase ctx) = .ok r)
    (hH : resolvedHostname c = .ok h0)
    (hC : compileScripts c fs compile (c.sub_keys "sieve.scripts") ctx =
      (ctx1, some e)) :
    parse_sieve c fs compile ctx = (.error e, ctx1) := by
  unfold parse_sieve
  simp [hA, hH, hC]

theorem parse_sieve_signers_err (c : Config) (fs : List (String × String))
    (compile : Compiler → String → Except String Script)
    (ctx : ConfigContext) (r : Runtime) (h0 : String)
    (ctx1 : ConfigContext) (e : String)
    (hA : applyLimits c (sieveRuntimeBase ctx) = .ok r)
    (hH : resolvedHostname c = .ok h0)
    (hC : compileScripts c fs compile (c.sub_keys "sieve.scripts") ctx =
      (ctx1, none))
    (hS : resolveSigners ctx1.signers (c.values "sieve.sign") = .error e) :
    parse_sieve c fs compile ctx = (.error e, ctx1) := by
  unfold parse_sieve
  simp [hA, hH, hC, hS]

theorem parse_sieve_db_err (c : Config) (fs : List (String × String))
    (compile : Compiler → String → Except String Script)
    (ctx : ConfigContext) (r : Runtime) (h0 : String)
    (ctx1 : ConfigContext) (sign : List Signer) (e : String)
    (hA : applyLimits c (sieveRuntimeBase ctx) = .ok r)
    (hH : resolvedHostname c = .ok h0)
    (hC : compileScripts c fs compile (c.sub_keys "sieve.scripts") ctx =
      (ctx1, none))
    (hS : resolveSigners ctx1.signers (c.values "sieve.sign") = .ok sign)
    (hD : resolveDb c ctx1.directory.directories = .error e) :
    parse_sieve c fs compile ctx = (.error e, ctx1) := by
  unfold parse_sieve
  simp [hA, hH, hC, hS, hD]

theorem scriptResult_isSome_elim (c : Config) (fs : List (String × String))
    (compile : Compiler → String → Except String Script) (id : String)
    (h : (scriptResult c fs compile id).isSome) :
    ∃ src scr, fileContents c fs ("sieve.scripts." ++ id) = .ok src ∧
      compile sieveCompiler src = .ok scr ∧
      scriptResult c fs compile id = some scr := by
  cases hf : fileContents c fs ("sieve.scripts." ++ id) with
  | error e => simp [scriptResult, hf] at h
  | ok src =>
    cases hc : compile sieveCompiler src with
    | error err => simp [scriptResult, hf, hc, Except.toOption] at h
    | ok scr =>
      exact ⟨src, scr, rfl, hc, by simp [scriptResult, hf, hc, Except.toOption]⟩

/-- **C1** (corrected): provided the context's script cache is empty at the
start of the call, the script registry of the `SieveCore` returned by a
successful `parse_sieve` contains exactly one compiled entry per sub-key of
`sieve.scripts`, keyed by that sub-key, with no other entries, and each
sub-key maps to the script compiled from its file.  The `Nodup` premise
reflects the configuration store's sorted unique keys (a `BTreeMap`), under
which the sub-key list is duplicate-free.  Without the empty-cache premise
the claim as stated is false, because the returned registry is a clone of
the shared cache: see `c1_counterexample`. -/
theorem c1_script_registry (c : Config) (fs : List (String × String))
    (compile : Compiler → String → Except String Script)
    (ctx : ConfigContext) (core : SieveCore) (ctx2 : ConfigContext)
    (hempty : ctx.scripts = [])
    (hnd : (c.sub_keys "sieve.scripts").Nodup)
    (h : parse_sieve c fs compile ctx = (.ok core, ctx2)) :
    core.scripts.map Prod.fst = c.sub_keys "sieve.scripts" ∧
    ∀ id ∈ c.sub_keys "sieve.scripts",
      ∃ src scr, fileContents c fs ("sieve.scripts." ++ id) = .ok src ∧
        compile sieveCompiler src = .ok scr ∧
        lookupA core.scripts id = some scr := by
  obtain ⟨r, h0, sign, db, hA, hH, hC, hS, hD, hcore⟩ :=
    parse_sieve_ok_elim c fs compile ctx core ctx2 h
  obtain ⟨hall, hlook⟩ := compileScripts_ok_spec c fs compile _ ctx ctx2 hC
  have hkeys := compileScripts_ok_keys c fs compile _ ctx ctx2 hC hnd
    (by intro id _; rw [hempty]; simp)
  constructor
  · rw [hcore]
    rw [hkeys, hempty]
    simp
  · intro id hid
    obtain ⟨src, scr, hf, hc, hres⟩ :=
      scriptResult_isSome_elim c fs compile id (hall id hid)
    refine ⟨src, scr, hf, hc, ?_⟩
    rw [hcore]
    have hl := hlook id
    rw [if_pos hid] at hl
    rw [hl, hres]

/-- **C1** counterexample to the claim as stated: with a script cache
already holding an entry keyed `"stale"`, the registry of the returned
`SieveCore` contains that entry even though `sieve.scripts` has no
sub-keys, so the registry does not contain only one entry per sub-key. -/
theorem c1_counterexample :
    cfgC1.sub_keys "sieve.scripts" = [] ∧
    (match (parse_sieve cfgC1 fsW compileOk ctxStale).1 with
     | .ok core => lookupA core.scripts "stale"
     | .error _ => none) = some ⟨"old"⟩ := ⟨rfl, rfl⟩

/-- **C1** witness: on a concrete configuration with two scripts and an
empty cache, the registry keys are exactly the two sub-keys. -/
theorem c1_script_registry_witness :
    coreW1.scripts.map Prod.fst = cfgW1.sub_keys "sieve.scripts" :=
  (c1_script_registry cfgW1 fsW compileOk ctxW0 coreW1
    ((parse_sieve cfgW1 fsW compileOk ctxW0).2) rfl (by decide) rfl).1

/-- **C2** (confirmed): the resolved local hostname stored in the runtime is
`sieve.hostname` when that key is present, else `server.hostname` when that
key is present; when both are absent, `parse_sieve` returns a fatal
error. -/
theorem c2_hostname (c : Config) (fs : List (String × String))
    (compile : Compiler → String → Except String Script)
    (ctx : ConfigContext) :
    (∀ h core ctx2, c.value "sieve.hostname" = some h →
      parse_sieve c fs compile ctx = (.ok core, ctx2) →
      core.runtime.localHostname = some h) ∧
    (∀ h core ctx2, c.value "sieve.hostname" = none →
      c.value "server.hostname" = some h →
      parse_sieve c fs compile ctx = (.ok core, ctx2) →
      core.runtime.localHostname = some h) ∧
    (c.value "sieve.hostname" = none → c.value "server.hostname" = none →
      ∃ e ctx2, parse_sieve c fs compile ctx = (.error e, ctx2)) := by
  refine ⟨?_, ?_, ?_⟩
  · intro h core ctx2 hs hp
    obtain ⟨r, h0, sign, db, hA, hH, hC, hS, hD, hcore⟩ :=
      parse_sieve_ok_elim c fs compile ctx core ctx2 hp
    have hh : h0 = h := by
      simp only [resolvedHostname, hs] at hH
      exact (Except.ok.inj hH).symm
    rw [hcore]
    simp [Runtime.set_local_hostname, hh]
  · intro h core ctx2 hs hsrv hp
    obtain ⟨r, h0, sign, db, hA, hH, hC, hS, hD, hcore⟩ :=
      parse_sieve_ok_elim c fs compile ctx core ctx2 hp
    have hh : h0 = h := by
      simp only [resolvedHostname, Config.value_require, hs, hsrv] at hH
      exact (Except.ok.inj hH).symm
    rw [hcore]
    simp [Runtime.set_local_hostname, hh]
  · intro h1 h2
    cases hA : applyLimits c (sieveRuntimeBase ctx) with
    | error e => exact ⟨e, ctx, by unfold parse_sieve; simp [hA]⟩
    | ok r =>
      have hH : resolvedHostname c =
          .error ("Missing setting " ++ rustDebug "server.hostname" ++ ".") := by
        unfold resolvedHostname Config.value_require
        rw [h1, h2]
      exact ⟨"Missing setting " ++ rustDebug "server.hostname" ++ ".", ctx,
        by unfold parse_sieve; simp [hA, hH]⟩

/-- **C2** witness: `sieve.hostname` takes priority on a concrete
configuration setting both keys. -/
theorem c2_hostname_witness :
    coreW2.runtime.localHostname = some "sieve.example.org" :=
  (c2_hostname cfgW2 fsW compileOk ctxW0).1 "sieve.example.org" coreW2
    ((parse_sieve cfgW2 fsW compileOk ctxW0).2) rfl rfl

/-- **C3** (confirmed): the compiler built by `parse_sieve` has maximum
string size 10240: the second of the two consecutive `with_max_string_size`
calls (52428800 then 10240) silently overrides the first, so the whole
builder chain equals the chain without the 52428800 call. -/
theorem c3_max_string_size :
    sieveCompiler.maxStringSize = some 10240 ∧
    sieveCompiler =
      (((((((Compiler.new.with_max_string_size
        10240).with_max_variable_name_size 100).with_max_nested_blocks
        50).with_max_nested_tests 50).with_max_nested_foreverypart
        10).with_max_local_variables 128).with_max_header_size
        10240).with_max_includes 10 := ⟨rfl, rfl⟩

/-- **C4** (confirmed): on success, the signer list is, in the order of the
`sieve.sign` entries, the signer handle looked up by identifier in the
context's signer table; and when an entry's identifier (the first
unresolved one) is not in that table while the earlier stages succeed,
`parse_sieve` returns a fatal error naming that identifier and its
configuration key (`signerErrMsg` contains both). -/
theorem c4_signers (c : Config) (fs : List (String × String))
    (compile : Compiler → String → Except String Script)
    (ctx : ConfigContext) :
    (∀ core ctx2, parse_sieve c fs compile ctx = (.ok core, ctx2) →
      (∀ e ∈ c.values "sieve.sign", (lookupA ctx.signers e.2).isSome) ∧
      core.config.sign =
        (c.values "sieve.sign").filterMap
          (fun e => lookupA ctx.signers e.2)) ∧
    (∀ r h0 ctx1 pre pos id post,
      applyLimits c (sieveRuntimeBase ctx) = .ok r →
      resolvedHostname c = .ok h0 →
      compileScripts c fs compile (c.sub_keys "sieve.scripts") ctx =
        (ctx1, none) →
      c.values "sieve.sign" = pre ++ (pos, id) :: post →
      (∀ e ∈ pre, (lookupA ctx.signers e.2).isSome) →
      lookupA ctx.signers id = none →
      (parse_sieve c fs compile ctx).1 = .error (signerErrMsg pos id)) := by
  constructor
  · intro core ctx2 hp
    obtain ⟨r, h0, sign, db, hA, hH, hC, hS, hD, hcore⟩ :=
      parse_sieve_ok_elim c fs compile ctx core ctx2 hp
    have hsig : ctx2.signers = ctx.signers := by
      have hpr := (compileScripts_preserves c fs compile
        (c.sub_keys "sieve.scripts") ctx).1
      rw [hC] at hpr
      exact hpr
    rw [hsig] at hS
    obtain ⟨hall, hfm⟩ := resolveSigners_ok_spec ctx.signers _ sign hS
    refine ⟨hall, ?_⟩
    rw [hcore]
    exact hfm
  · intro r h0 ctx1 pre pos id post hA hH hC hsplit hpre hnone
    have hsig : ctx1.signers = ctx.signers := by
      have hpr := (compileScripts_preserves c fs compile
        (c.sub_keys "sieve.scripts") ctx).1
      rw [hC] at hpr
      exact hpr
    have hS : resolveSigners ctx1.signers (c.values "sieve.sign") =
        .error (signerErrMsg pos id) := by
      rw [hsig, hsplit]
      exact resolveSigners_fail ctx.signers pre pos id post hpre hnone
    rw [parse_sieve_signers_err c fs compile ctx r h0 ctx1 _ hA hH hC hS]

/-- **C4** witness: a concrete `sieve.sign` entry referencing the unknown
id `ed25519` makes `parse_sieve` fail with the message naming that id and
the key `sieve.sign.0`. -/
theorem c4_signers_witness :
    (parse_sieve cfgW4 fsW compileOk ctxW0).1 =
      .error (signerErrMsg "0" "ed25519") :=
  (c4_signers cfgW4 fsW compileOk ctxW0).2 (sieveRuntimeBase ctxW0) "h"
    ctxW0 [] "0" "ed25519" [] rfl rfl rfl rfl (by simp) rfl

/-- **C5** (confirmed): when the earlier stages succeed and the first
failing script under `sieve.scripts` fails to compile, `parse_sieve`
returns a fatal error equal to `compileErrMsg id err`, which contains the
script identifier (Debug-quoted) and the underlying compiler error. -/
theorem c5_compile_error (c : Config) (fs : List (String × String))
    (compile : Compiler → String → Except String Script)
    (ctx : ConfigContext) (r : Runtime) (h0 : String)
    (pre : List String) (id : String) (post : List String) (src err : String)
    (hA : applyLimits c (sieveRuntimeBase ctx) = .ok r)
    (hH : resolvedHostname c = .ok h0)
    (hsk : c.sub_keys "sieve.scripts" = pre ++ id :: post)
    (hpre : ∀ j ∈ pre, (scriptResult c fs compile j).isSome)
    (hfile : fileContents c fs ("sieve.scripts." ++ id) = .ok src)
    (hcomp : compile sieveCompiler src = .error err) :
    (parse_sieve c fs compile ctx).1 = .error (compileErrMsg id err) := by
  have h2 := compileScripts_fail c fs compile pre ctx id post src err hpre
    hfile hcomp
  cases hC : compileScripts c fs compile (pre ++ id :: post) ctx with
  | mk ctx1 errOpt =>
    rw [hC] at h2
    simp only at h2
    subst h2
    rw [parse_sieve_scripts_err c fs compile ctx r h0 ctx1 _ hA hH
      (by rw [hsk]; exact hC)]

/-- **C5** witness: a concrete script that the failing compiler rejects
makes `parse_sieve` fail with the message naming the script id `bad` and
the compiler diagnostic. -/
theorem c5_compile_error_witness :
    (parse_sieve cfgW5 fsW compileBad ctxW0).1 =
      .error (compileErrMsg "bad" "unexpected token") :=
  c5_compile_error cfgW5 fsW compileBad ctxW0 (sieveRuntimeBase ctxW0) "h"
    [] "bad" [] "keep keep;" "unexpected token" rfl rfl rfl (by simp) rfl rfl

/-- **C6** (confirmed): when `sieve.from-addr` is absent and `parse_sieve`
succeeds, the from-address is `MAILER-DAEMON@` followed by the resolved
hostname. -/
theorem c6_from_addr (c : Config) (fs : List (String × String))
    (compile : Compiler → String → Except String Script)
    (ctx : ConfigContext) (core : SieveCore) (ctx2 : ConfigContext)
    (h0 : String)
    (hp : parse_sieve c fs compile ctx = (.ok core, ctx2))
    (hH : resolvedHostname c = .ok h0)
    (habs : c.value "sieve.from-addr" = none) :
    core.config.from_addr = "MAILER-DAEMON@" ++ h0 := by
  obtain ⟨r, h1, sign, db, hA, hH2, hC, hS, hD, hcore⟩ :=
    parse_sieve_ok_elim c fs compile ctx core ctx2 hp
  rw [hH] at hH2
  have hh : h1 = h0 := (Except.ok.inj hH2).symm
  rw [hcore]
  simp [habs, hh]

/-- **C6** witness: on a concrete configuration omitting `sieve.from-addr`,
the from-address is the synthesized mailer-daemon address. -/
theorem c6_from_addr_witness :
    coreW1.config.from_addr = "MAILER-DAEMON@mx.example.org" :=
  c6_from_addr cfgW1 fsW compileOk ctxW0 coreW1
    ((parse_sieve cfgW1 fsW compileOk ctxW0).2) "mx.example.org" rfl rfl rfl

/-- **C7** (confirmed): when `sieve.use-directory` is absent, a successful
parse leaves the storage handle `none`; when it names a backend absent from
the directory table while the earlier stages succeed, `parse_sieve` returns
a fatal error naming that backend (`dbErrMsg` contains it). -/
theorem c7_use_directory (c : Config) (fs : List (String × String))
    (compile : Compiler → String → Except String Script)
    (ctx : ConfigContext) :
    (∀ core ctx2, parse_sieve c fs compile ctx = (.ok core, ctx2) →
      c.value "sieve.use-directory" = none → core.config.db = none) ∧
    (∀ r h0 ctx1 sign db,
      applyLimits c (sieveRuntimeBase ctx) = .ok r →
      resolvedHostname c = .ok h0 →
      compileScripts c fs compile (c.sub_keys "sieve.scripts") ctx =
        (ctx1, none) →
      resolveSigners ctx1.signers (c.values "sieve.sign") = .ok sign →
      c.value "sieve.use-directory" = some db →
      lookupA ctx.directory.directories db = none →
      (parse_sieve c fs compile ctx).1 = .error (dbErrMsg db)) := by
  constructor
  · intro core ctx2 hp habs
    obtain ⟨r, h0, sign, db, hA, hH, hC, hS, hD, hcore⟩ :=
      parse_sieve_ok_elim c fs compile ctx core ctx2 hp
    simp only [resolveDb, habs] at hD
    have hdb : db = none := (Except.ok.inj hD).symm
    rw [hcore]
    exact hdb
  · intro r h0 ctx1 sign db hA hH hC hS hval hnone
    have hdir : ctx1.directory = ctx.directory := by
      have hpr := (compileScripts_preserves c fs compile
        (c.sub_keys "sieve.scripts") ctx).2
      rw [hC] at hpr
      exact hpr
    have hD : resolveDb c ctx1.directory.directories = .error (dbErrMsg db) := by
      simp only [resolveDb, hval, hdir, hnone]
    rw [parse_sieve_db_err c fs compile ctx r h0 ctx1 sign _ hA hH hC hS hD]

/-- **C7** witness: a concrete `sieve.use-directory` value naming the
unknown backend `missingdb` makes `parse_sieve` fail with the message
naming it. -/
theorem c7_use_directory_witness :
    (parse_sieve cfgW7 fsW compileOk ctxW0).1 = .error (dbErrMsg "missingdb") :=
  (c7_use_directory cfgW7 fsW compileOk ctxW0).2 (sieveRuntimeBase ctxW0) "h"
    ctxW0 [] "missingdb" rfl rfl rfl rfl rfl rfl

/-- **C8** (confirmed): on success the runtime equals the base runtime with
exactly the six limit fields replaced, each by the parsed value of its own
key when present and by `none` (the engine's built-in default) when absent,
plus the hostname; every other runtime field is that of the base runtime,
and each limit field depends only on its own key, so no key affects any
other runtime limit. -/
theorem c8_limit_overrides (c : Config) (fs : List (String × String))
    (compile : Compiler → String → Except String Script)
    (ctx : ConfigContext) (core : SieveCore) (ctx2 : ConfigContext)
    (h0 : String)
    (hp : parse_sieve c fs compile ctx = (.ok core, ctx2))
    (hH : resolvedHostname c = .ok h0) :
    core.runtime = { sieveRuntimeBase ctx with
      maxRedirects := (c.value "sieve.limits.redirects").bind parseNat,
      maxOutMessages := (c.value "sieve.limits.out-messages").bind parseNat,
      cpuLimit := (c.value "sieve.limits.cpu").bind parseNat,
      maxNestedIncludes :=
        (c.value "sieve.limits.nested-includes").bind parseNat,
      maxReceivedHeaders :=
        (c.value "sieve.limits.received-headers").bind parseNat,
      defaultDuplicateExpiry :=
        (c.value "sieve.limits.duplicate-expiry").bind parseNat,
      localHostname := some h0 } := by
  obtain ⟨r, h1, sign, db, hA, hH2, hC, hS, hD, hcore⟩ :=
    parse_sieve_ok_elim c fs compile ctx core ctx2 hp
  rw [hH] at hH2
  have hh : h1 = h0 := (Except.ok.inj hH2).symm
  have hbase := applyLimits_base_ok c ctx r hA
  rw [hcore]
  simp only [hbase, hh]
  rfl

/-- **C8** witness: with only `sieve.limits.cpu` configured, the runtime is
the base runtime with that one limit set, the others at their defaults, and
the hostname resolved. -/
theorem c8_limit_overrides_witness :
    coreW8.runtime = { sieveRuntimeBase ctxW0 with
      maxRedirects := (cfgW8.value "sieve.limits.redirects").bind parseNat,
      maxOutMessages := (cfgW8.value "sieve.limits.out-messages").bind parseNat,
      cpuLimit := (cfgW8.value "sieve.limits.cpu").bind parseNat,
      maxNestedIncludes :=
        (cfgW8.value "sieve.limits.nested-includes").bind parseNat,
      maxReceivedHeaders :=
        (cfgW8.value "sieve.limits.received-headers").bind parseNat,
      defaultDuplicateExpiry :=
        (cfgW8.value "sieve.limits.duplicate-expiry").bind parseNat,
      localHostname := some "h" } :=
  c8_limit_overrides cfgW8 fsW compileOk ctxW0 coreW8
    ((parse_sieve cfgW8 fsW compileOk ctxW0).2) "h" rfl rfl

/-- **C9** (confirmed): on success the from-name is `sieve.from-name` when
present and `"Mailer Daemon"` otherwise, and the return-path is
`sieve.return-path` when present and `""` otherwise. -/
theorem c9_identity_defaults (c : Config) (fs : List (String × String))
    (compile : Compiler → String → Except String Script)
    (ctx : ConfigContext) (core : SieveCore) (ctx2 : ConfigContext)
    (hp : parse_sieve c fs compile ctx = (.ok core, ctx2)) :
    core.config.from_name = (c.value "sieve.from-name").getD "Mailer Daemon" ∧
    core.config.return_path = (c.value "sieve.return-path").getD "" := by
  obtain ⟨r, h0, sign, db, hA, hH, hC, hS, hD, hcore⟩ :=
    parse_sieve_ok_elim c fs compile ctx core ctx2 hp
  rw [hcore]
  exact ⟨rfl, rfl⟩

/-- **C9** witness: on a concrete configuration omitting both keys, the
defaults are produced. -/
theorem c9_identity_defaults_witness :
    coreW1.config.from_name = "Mailer Daemon" ∧
    coreW1.config.return_path = "" := by
  have h := c9_identity_defaults cfgW1 fsW compileOk ctxW0 coreW1
    ((parse_sieve cfgW1 fsW compileOk ctxW0).2) rfl
  exact ⟨h.1.trans rfl, h.2.trans rfl⟩

/-- **C10** (confirmed): `parse_sieve` is not atomic with respect to the
shared context: when the script-compilation loop has succeeded and the call
nevertheless returns an error (unresolved signer or storage backend), the
returned context is the post-compilation context, in which every compiled
script remains inserted. -/
theorem c10_context_mutation (c : Config) (fs : List (String × String))
    (compile : Compiler → String → Except String Script)
    (ctx : ConfigContext) (r : Runtime) (h0 : String)
    (ctx1 : ConfigContext) (e : String)
    (hA : applyLimits c (sieveRuntimeBase ctx) = .ok r)
    (hH : resolvedHostname c = .ok h0)
    (hC : compileScripts c fs compile (c.sub_keys "sieve.scripts") ctx =
      (ctx1, none))
    (_herr : (parse_sieve c fs compile ctx).1 = .error e) :
    (parse_sieve c fs compile ctx).2 = ctx1 ∧
    ∀ id ∈ c.sub_keys "sieve.scripts",
      ∃ scr, lookupA ctx1.scripts id = some scr ∧
        scriptResult c fs compile id = some scr := by
  obtain ⟨hall, hlook⟩ := compileScripts_ok_spec c fs compile _ ctx ctx1 hC
  constructor
  · unfold parse_sieve
    simp only [hA, hH, hC]
    cases hS : resolveSigners ctx1.signers (c.values "sieve.sign") with
    | error e2 => rfl
    | ok sign =>
      cases hD : resolveDb c ctx1.directory.directories with
      | error e2 => rfl
      | ok db => rfl
  · intro id hid
    obtain ⟨src, scr, hf, hc, hres⟩ :=
      scriptResult_isSome_elim c fs compile id (hall id hid)
    refine ⟨scr, ?_, hres⟩
    have hl := hlook id
    rw [if_pos hid] at hl
    rw [hl, hres]

/-- **C10** witness: on a concrete configuration whose script compiles but
whose signer is unknown, the call fails, yet the returned context's script
cache holds the compiled script that the input context lacked. -/
theorem c10_context_mutation_witness :
    (parse_sieve cfgW10 fsW compileOk ctxW0).1 =
      .error (signerErrMsg "0" "ed25519") ∧
    lookupA (parse_sieve cfgW10 fsW compileOk ctxW0).2.scripts "a" =
      some ⟨"keep;"⟩ ∧
    lookupA ctxW0.scripts "a" = none := by
  have h := c10_context_mutation cfgW10 fsW compileOk ctxW0
    (sieveRuntimeBase ctxW0) "h" ctx1W10 (signerErrMsg "0" "ed25519")
    rfl rfl rfl rfl
  obtain ⟨scr, hl, hres⟩ := h.2 "a" (by decide)
  have hscr : scr = (⟨"keep;"⟩ : Script) := by
    have : scriptResult cfgW10 fsW compileOk "a" = some ⟨"keep;"⟩ := rfl
    rw [this] at hres
    exact (Option.some.inj hres).symm
  refine ⟨rfl, ?_, rfl⟩
  rw [h.1, hl, hscr]

end SieveSpec
